import Mathlib

/-!
Shallow embedding of the repository's middleware and validation code
(`middleware-examples.py`, `pydantic-models.py`, `endpoint-examples.py`)
together with proofs about the claims on rate limiting, validation and
error formatting.

Modelling conventions:
* timestamps are integers counting seconds (`datetime.utcnow()` differences
  compare like integers; `timedelta(minutes=1)` is `60`);
* Python dictionaries keyed by client id become total functions
  `String → List Int` defaulting to `[]` (a `defaultdict(list)`);
* strings are modelled at ASCII granularity: the regex classes `\w`, `\s`,
  `\d` are taken in their ASCII meaning, so theorems about string
  transforms quantify over ASCII inputs where the distinction matters;
* a Python `re.match` against an `^...$` anchored pattern also succeeds
  when the pattern matches everything except one trailing newline, because
  `$` matches just before a final newline; the embedding keeps this.
-/

/-! ### Rate limiting middleware (`middleware-examples.py`, RateLimitMiddleware) -/

/-- Mutable state of `RateLimitMiddleware`: the `self.requests` defaultdict
from client identifier to the list of recorded timestamps. -/
structure RateLimitState where
  requests : String → List Int

/-- Fresh middleware state: `defaultdict(list)` with no entries. -/
def RateLimitState.init : RateLimitState := ⟨fun _ => []⟩

/-- The list comprehension
`[req_time for req_time in self.requests[client_id] if req_time > minute_ago]`
with `minute_ago = now - timedelta(minutes=1)`. -/
def trimRequests (l : List Int) (now : Int) : List Int :=
  l.filter (fun req_time => req_time > now - 60)

/-- The JSON body `{"error": ..., "detail": ...}` of a `JSONResponse`
produced by the rate limiter, together with its status code. -/
structure RateLimitResponse where
  status_code : Nat
  error : String
  detail : String
deriving DecidableEq

/-- Outcome of one `dispatch` call: either the request was forwarded to
`call_next`, or a `JSONResponse` was returned without calling it. -/
inductive RLOutcome where
  | forwarded
  | rejected (resp : RateLimitResponse)
deriving DecidableEq

/-- True when the request reached the inner handler (`call_next`). -/
def RLOutcome.isForwarded : RLOutcome → Bool
  | .forwarded => true
  | .rejected _ => false

/-- The 429 response built in the rate-limit branch:
`{"error": "Rate limit exceeded", "detail": f"Maximum ... requests per minute"}`. -/
def rateLimit429 (requests_per_minute : Nat) : RateLimitResponse :=
  { status_code := 429
    error := "Rate limit exceeded"
    detail := "Maximum " ++ toString requests_per_minute ++ " requests per minute" }

/-- One call of `RateLimitMiddleware.dispatch`.  `requests_per_minute` is the
constructor argument, `path` is `request.url.path`, `client` is
`request.client.host` (or `"unknown"`), `now` is `datetime.utcnow()`.
Returns the outcome and the updated middleware state, following the source:
skip `/health`, trim the client's list, reject with 429 when the trimmed
list already has `requests_per_minute` entries, otherwise record `now`
and forward. -/
def RateLimitMiddleware.dispatch (requests_per_minute : Nat) (st : RateLimitState)
    (path client : String) (now : Int) : RLOutcome × RateLimitState :=
  if path = "/health" then
    (.forwarded, st)
  else
    let trimmed := trimRequests (st.requests client) now
    if trimmed.length ≥ requests_per_minute then
      (.rejected (rateLimit429 requests_per_minute),
       ⟨Function.update st.requests client trimmed⟩)
    else
      (.forwarded, ⟨Function.update st.requests client (trimmed ++ [now])⟩)

/-- A request event as seen by the rate limiter. -/
structure RLEvent where
  path : String
  client : String
  time : Int
deriving DecidableEq

/-- Sequential processing of a list of requests (the framework's
single-request-at-a-time model), returning the final middleware state. -/
def runRL (requests_per_minute : Nat) (st : RateLimitState) : List RLEvent → RateLimitState
  | [] => st
  | e :: es =>
      runRL requests_per_minute
        (RateLimitMiddleware.dispatch requests_per_minute st e.path e.client e.time).2 es

/-- Sequential processing returning every event paired with its outcome. -/
def runRLTrace (requests_per_minute : Nat) (st : RateLimitState) :
    List RLEvent → List (RLEvent × RLOutcome)
  | [] => []
  | e :: es =>
      let r := RateLimitMiddleware.dispatch requests_per_minute st e.path e.client e.time
      (e, r.1) :: runRLTrace requests_per_minute r.2 es

/-- Timestamps of the requests of client `c` that the run recorded, i.e.
those forwarded to the inner handler on a path other than `/health`. -/
def recordedTimes (tr : List (RLEvent × RLOutcome)) (c : String) : List Int :=
  (tr.filter (fun p => p.2.isForwarded && p.1.client = c && p.1.path ≠ "/health")).map
    (fun p => p.1.time)

/-- Number of the timestamps in `l` lying in the 60-second window `(hi-60, hi]`. -/
def windowCount (l : List Int) (hi : Int) : Nat :=
  (l.filter (fun t => hi - 60 < t && t ≤ hi)).length

/-! ### Authentication middleware (`middleware-examples.py`, AuthenticationMiddleware) -/

/-- Python's `str.startswith`: the pattern's characters are an initial
segment of the string's characters. -/
def pyStartsWith (s pat : String) : Bool :=
  pat.data.isPrefixOf s.data

/-- The `public_paths` list of `AuthenticationMiddleware.dispatch`. -/
def public_paths : List String :=
  ["/health", "/docs", "/redoc", "/openapi.json", "/auth/login", "/auth/register"]

/-- A request as seen by the authentication middleware: its path and the
value of `request.headers.get("Authorization")` (`none` when absent). -/
structure AuthRequest where
  path : String
  authorization : Option String
deriving DecidableEq

/-- The JSON body and headers of a 401 `JSONResponse` of the middleware. -/
structure AuthResponse where
  status_code : Nat
  error : String
  www_authenticate : String
deriving DecidableEq

/-- Outcome of `AuthenticationMiddleware.dispatch`: the request is forwarded
to `call_next` (with `request.state.user_id` set when a token was verified,
`none` on the public-path branch which touches nothing), or a 401 response
is returned without calling the inner handler. -/
inductive AuthOutcome where
  | forward (user_id : Option Nat)
  | unauthorized (resp : AuthResponse)
deriving DecidableEq

/-- One call of `AuthenticationMiddleware.dispatch`.  The external JWT
verification `verify_token` (placeholder backed by the `jwt` library) is a
parameter `verify`; `Except.error` models a raised exception. -/
def AuthenticationMiddleware.dispatch (verify : String → Except String Nat)
    (req : AuthRequest) : AuthOutcome :=
  if public_paths.any (fun p => pyStartsWith req.path p) then
    .forward none
  else
    let auth_header := req.authorization.getD ""
    if auth_header = "" ∨ ¬ pyStartsWith auth_header "Bearer " then
      .unauthorized { status_code := 401
                      error := "Authentication required"
                      www_authenticate := "Bearer" }
    else
      let token := ((auth_header.splitOn " ").getD 1 "")
      match verify token with
      | .ok user_id => .forward (some user_id)
      | .error _ =>
          .unauthorized { status_code := 401
                          error := "Invalid or expired token"
                          www_authenticate := "Bearer" }

/-! ### Security headers middleware (`middleware-examples.py`, SecurityHeadersMiddleware) -/

/-- An HTTP response as the middleware sees it: status, body, and headers
as a total map from header name to optional value. -/
structure HttpResponse where
  status_code : Nat
  body : String
  headers : String → Option String

/-- Assignment `response.headers[name] = value`. -/
def setHeader (r : HttpResponse) (name value : String) : HttpResponse :=
  { r with headers := Function.update r.headers name (some value) }

/-- The five header names written by `SecurityHeadersMiddleware.dispatch`. -/
def securityHeaderNames : List String :=
  ["X-Content-Type-Options", "X-Frame-Options", "X-XSS-Protection",
   "Strict-Transport-Security", "Referrer-Policy"]

/-- One call of `SecurityHeadersMiddleware.dispatch`: take the inner
handler's response and set the five security headers to fixed values. -/
def SecurityHeadersMiddleware.dispatch (inner : HttpResponse) : HttpResponse :=
  let r := setHeader inner "X-Content-Type-Options" "nosniff"
  let r := setHeader r "X-Frame-Options" "DENY"
  let r := setHeader r "X-XSS-Protection" "1; mode=block"
  let r := setHeader r "Strict-Transport-Security" "max-age=31536000; includeSubDomains"
  setHeader r "Referrer-Policy" "strict-origin-when-cross-origin"

/-! ### Password validation (`pydantic-models.py`, PASSWORD_PATTERN / validate_password) -/

/-- The special characters `@$!%*?&` of `PASSWORD_PATTERN`. -/
def passwordSpecialChars : List Char := ['@', '$', '!', '%', '*', '?', '&']

/-- Membership in the character class `[A-Za-z\d@$!%*?&]`.  Python's `\d`
is Unicode-aware on `str` patterns; the embedding reads it at ASCII
granularity (`Char.isDigit`), so theorems about the pattern carry an
explicit ASCII hypothesis on the input. -/
def allowedPasswordChar (c : Char) : Bool :=
  c.isUpper || c.isLower || c.isDigit || decide (c ∈ passwordSpecialChars)

/-- Full match of
`(?=.*[a-z])(?=.*[A-Z])(?=.*\d)(?=.*[@$!%*?&])[A-Za-z\d@$!%*?&]{8,128}`
against the character list `l`: the four lookaheads demand one character of
each class somewhere in `l`, the body demands that `l` consist of 8 to 128
characters of the allowed class. -/
def passwordCore (l : List Char) : Bool :=
  l.any Char.isLower && l.any Char.isUpper && l.any Char.isDigit &&
  l.any (fun c => decide (c ∈ passwordSpecialChars)) &&
  l.all allowedPasswordChar && 8 ≤ l.length && l.length ≤ 128

/-- Python's `re.match(p, s)` for an `^...$` anchored pattern `p`: the body
matches the whole string, or everything before one final newline (`$` also
matches just before a trailing newline). -/
def reMatchAnchored (core : List Char → Bool) (s : String) : Bool :=
  core s.data || (s.data.getLast? = some '\n' && core s.data.dropLast)

/-- Result of `re.match(PASSWORD_PATTERN, password)`. -/
def PASSWORD_PATTERN_matches (s : String) : Bool :=
  reMatchAnchored passwordCore s

/-- The error message raised by `validate_password`. -/
def passwordErrorMsg : String :=
  "Password must be 8-128 characters and contain at least one uppercase letter, one lowercase letter, one number, and one special character"

/-- The function `validate_password`: return the password unchanged when it
matches `PASSWORD_PATTERN`, otherwise raise `ValueError` (modelled as
`Except.error`). -/
def validate_password (password : String) : Except String String :=
  if PASSWORD_PATTERN_matches password then .ok password
  else .error passwordErrorMsg

/-! ### Registration / password-change / password-reset models
(`pydantic-models.py`, UserRegistration, PasswordChange, PasswordReset) -/

/-- Body of `USERNAME_PATTERN = ^[a-zA-Z0-9_]{3,30}$`. -/
def usernameCore (l : List Char) : Bool :=
  l.all (fun c => c.isAlphanum || c = '_') && 3 ≤ l.length && l.length ≤ 30

/-- Result of matching a string against `USERNAME_PATTERN`. -/
def USERNAME_PATTERN_matches (s : String) : Bool :=
  reMatchAnchored usernameCore s

/-- Input fields of the `UserRegistration` model (`birth_date` omitted:
it is optional and unconstrained beyond being a date). -/
structure UserRegistrationInput where
  email : String
  username : String
  password : String
  confirm_password : String
  first_name : String
  last_name : String
  accept_terms : Bool
deriving DecidableEq

/-- Validation of `UserRegistration`, in pydantic v1 order: per-field
constraints and field validators first (`EmailStr` is the external library
check `emailValid`; username regex; password length field constraint then
`validate_password`; name lengths; `must_accept_terms`), then the
`passwords_match` root validator.  On success the values are returned with
email and username lowercased by their validators. -/
def UserRegistration.validate (emailValid : String → Bool)
    (x : UserRegistrationInput) : Except String UserRegistrationInput :=
  if ¬ emailValid x.email then .error "value is not a valid email address"
  else if ¬ USERNAME_PATTERN_matches x.username then .error "string does not match regex"
  else if ¬ (8 ≤ x.password.length ∧ x.password.length ≤ 128) then
    .error "ensure this value has at least 8 and at most 128 characters"
  else
    match validate_password x.password with
    | .error e => .error e
    | .ok password =>
      if ¬ (1 ≤ x.first_name.length ∧ x.first_name.length ≤ 50) then
        .error "ensure this value has at least 1 and at most 50 characters"
      else if ¬ (1 ≤ x.last_name.length ∧ x.last_name.length ≤ 50) then
        .error "ensure this value has at least 1 and at most 50 characters"
      else if ¬ x.accept_terms then .error "You must accept the terms and conditions"
      else if password ≠ x.confirm_password then .error "Passwords do not match"
      else .ok { x with email := x.email.toLower, username := x.username.toLower,
                        password := password }

/-- Input fields of the `PasswordChange` model. -/
structure PasswordChangeInput where
  current_password : String
  new_password : String
  confirm_password : String
deriving DecidableEq

/-- Validation of `PasswordChange`: field constraints and
`password_strength` on `new_password`, then the `passwords_match` root
validator (equality with `confirm_password`, difference from
`current_password`). -/
def PasswordChange.validate (x : PasswordChangeInput) :
    Except String PasswordChangeInput :=
  if ¬ 1 ≤ x.current_password.length then
    .error "ensure this value has at least 1 characters"
  else if ¬ (8 ≤ x.new_password.length ∧ x.new_password.length ≤ 128) then
    .error "ensure this value has at least 8 and at most 128 characters"
  else
    match validate_password x.new_password with
    | .error e => .error e
    | .ok new_password =>
      if new_password ≠ x.confirm_password then .error "Passwords do not match"
      else if new_password = x.current_password then
        .error "New password must be different from current password"
      else .ok { x with new_password := new_password }

/-- Input fields of the `PasswordReset` model. -/
structure PasswordResetInput where
  token : String
  password : String
  confirm_password : String
deriving DecidableEq

/-- Validation of `PasswordReset`: field constraints and
`password_strength` on `password`, then the `passwords_match` root
validator. -/
def PasswordReset.validate (x : PasswordResetInput) :
    Except String PasswordResetInput :=
  if ¬ 1 ≤ x.token.length then .error "ensure this value has at least 1 characters"
  else if ¬ (8 ≤ x.password.length ∧ x.password.length ≤ 128) then
    .error "ensure this value has at least 8 and at most 128 characters"
  else
    match validate_password x.password with
    | .error e => .error e
    | .ok password =>
      if password ≠ x.confirm_password then .error "Passwords do not match"
      else .ok { x with password := password }

/-! ### Validation error formatting (`pydantic-models.py` format_validation_error,
`middleware-examples.py` validation_exception_handler) -/

/-- One entry of `exc.errors()` from the validation library: its location
path (elements already rendered by `str`), message and type. -/
structure PydanticErrorItem where
  loc : List String
  msg : String
  type_ : String
deriving DecidableEq

/-- The `ErrorDetail` model: `field` and `message`. -/
structure ErrorDetail where
  field : String
  message : String
deriving DecidableEq

/-- The `ErrorResponse` model: `error` and optional `details`. -/
structure ErrorResponse where
  error : String
  details : Option (List ErrorDetail)
deriving DecidableEq

/-- The function `format_validation_error`: one `ErrorDetail` per underlying
error, with `field = '.'.join(str(loc) for loc in error['loc'])`. -/
def format_validation_error (errors : List PydanticErrorItem) : ErrorResponse :=
  { error := "Validation failed"
    details := some (errors.map (fun e =>
      { field := String.intercalate "." e.loc, message := e.msg })) }

/-- One entry of the `details` list built by `validation_exception_handler`. -/
structure HandlerDetail where
  field : String
  message : String
  type_ : String
deriving DecidableEq

/-- The `JSONResponse` built by `validation_exception_handler`. -/
structure HandlerResponse where
  status_code : Nat
  error : String
  details : List HandlerDetail
  timestamp : String
deriving DecidableEq

/-- The exception handler `validation_exception_handler`: a 400 response
with the fixed envelope; `now` is `datetime.utcnow().isoformat()`. -/
def validation_exception_handler (now : String) (errors : List PydanticErrorItem) :
    HandlerResponse :=
  { status_code := 400
    error := "Validation failed"
    details := errors.map (fun e =>
      { field := String.intercalate "." e.loc, message := e.msg, type_ := e.type_ })
    timestamp := now }

/-! ### Pagination (`pydantic-models.py` PaginatedResponse.calculate_pages,
`endpoint-examples.py` list_users) -/

/-- The `calculate_pages` validator of `PaginatedResponse`:
`(total + limit - 1) // limit if limit > 0 else 0`, ignoring the supplied
`pages` value `v`.  Python `//` is floor division, `Int.fdiv`. -/
def PaginatedResponse.calculate_pages (v total limit : Int) : Int :=
  if limit > 0 then (total + limit - 1).fdiv limit else 0

/-- The `pages` argument computed inline by `list_users`:
`(total + limit - 1) // limit`. -/
def list_users_pages (total limit : Int) : Int :=
  (total + limit - 1).fdiv limit

/-! ### Slug generation (`pydantic-models.py`, SLUG_PATTERN / slug_generator) -/

/-- Python `\s` on ASCII: space, tab, newline, carriage return, vertical
tab, form feed. -/
def pythonIsSpace (c : Char) : Bool :=
  c = ' ' || c = '\t' || c = '\n' || c = '\r' || c = '\x0b' || c = '\x0c'

/-- Python `\w` on ASCII: letters, digits and underscore. -/
def pythonIsWord (c : Char) : Bool :=
  c.isAlphanum || c = '_'

/-- Characters surviving `re.sub(r'[^\w\s-]', '', slug)`: word characters,
whitespace and hyphen. -/
def slugKeepChar (c : Char) : Bool :=
  pythonIsWord c || pythonIsSpace c || c = '-'

/-- Membership in the class `[\s_-]` of `re.sub(r'[\s_-]+', '-', slug)`. -/
def slugSepChar (c : Char) : Bool :=
  pythonIsSpace c || c = '_' || c = '-'

/-- The substitution `re.sub(r'[\s_-]+', '-', slug)`: every maximal run of
separator characters becomes a single hyphen. -/
def collapseSeps : List Char → List Char
  | [] => []
  | [c] => if slugSepChar c then ['-'] else [c]
  | c :: d :: rest =>
      if slugSepChar c && slugSepChar d then collapseSeps (d :: rest)
      else (if slugSepChar c then '-' else c) :: collapseSeps (d :: rest)

/-- Python `slug.strip('-')`: remove leading and trailing hyphens. -/
def stripHyphens (l : List Char) : List Char :=
  ((l.dropWhile (fun c => c = '-')).reverse.dropWhile (fun c => c = '-')).reverse

/-- The function `slug_generator`: lowercase, delete characters outside
`[\w\s-]`, collapse separator runs to single hyphens, strip hyphens. -/
def slug_generator (v : String) : String :=
  String.mk (stripHyphens (collapseSeps ((v.data.map Char.toLower).filter slugKeepChar)))

/-- Membership in the class `[a-z0-9]` of `SLUG_PATTERN`. -/
def slugBodyChar (c : Char) : Bool :=
  c.isLower || c.isDigit

/-- Left-to-right matcher for the body of
`SLUG_PATTERN = ^[a-z0-9]+(?:-[a-z0-9]+)*$`.  The flag records whether the
current `[a-z0-9]+` group already has a character; a hyphen is legal only
then, and opens a new group that must become nonempty. -/
def slugCore : List Char → Bool → Bool
  | [], seen => seen
  | c :: rest, seen =>
      if slugBodyChar c then slugCore rest true
      else if c = '-' then seen && slugCore rest false
      else false

/-- Result of matching a string against `SLUG_PATTERN`. -/
def SLUG_PATTERN_matches (s : String) : Bool :=
  reMatchAnchored (fun l => slugCore l false) s

/-! ### Claim-side predicates -/

/-- Spec-side reading of a strong password (`PASSWORD_PATTERN` spelled out):
8 to 128 characters, at least one lowercase letter, one uppercase letter,
one digit and one of the special characters `@$!%*?&`, and every character
drawn from letters, digits and those special characters. -/
def goodPasswordChars (l : List Char) : Prop :=
  8 ≤ l.length ∧ l.length ≤ 128 ∧
  (∃ c ∈ l, c.isLower) ∧ (∃ c ∈ l, c.isUpper) ∧ (∃ c ∈ l, c.isDigit) ∧
  (∃ c ∈ l, c ∈ passwordSpecialChars) ∧ (∀ c ∈ l, allowedPasswordChar c)

instance (l : List Char) : Decidable (goodPasswordChars l) := by
  unfold goodPasswordChars; infer_instance

/-! ## Theorems -/

/-! ### C3: rate-limit rejection -/

/-- C3: whenever `RateLimitMiddleware.dispatch` reaches the rate-limit check
(path not `/health`) and the client's trimmed timestamp list already has at
least `requests_per_minute` entries, it returns the 429 response with body
`{"error": "Rate limit exceeded", "detail": ...}`, the inner handler is not
called (the outcome is `rejected`, not `forwarded`), and the stored state
for the client stays the trimmed list: the rejected request's timestamp is
not recorded. -/
theorem rateLimit_reject_429 (requests_per_minute : Nat) (st : RateLimitState)
    (path client : String) (now : Int)
    (hpath : path ≠ "/health")
    (hfull : (trimRequests (st.requests client) now).length ≥ requests_per_minute) :
    RateLimitMiddleware.dispatch requests_per_minute st path client now =
      (.rejected { status_code := 429
                   error := "Rate limit exceeded"
                   detail := "Maximum " ++ toString requests_per_minute ++
                             " requests per minute" },
       ⟨Function.update st.requests client (trimRequests (st.requests client) now)⟩) := by
  simp [RateLimitMiddleware.dispatch, hpath, hfull, rateLimit429]

/-- Witness for C3 at a concrete full state: one recorded timestamp and a
limit of 1. -/
theorem rateLimit_reject_429_witness :
    RateLimitMiddleware.dispatch 1 ⟨fun _ => [(0 : Int)]⟩ "/x" "c" 0 =
      (.rejected { status_code := 429
                   error := "Rate limit exceeded"
                   detail := "Maximum " ++ toString 1 ++ " requests per minute" },
       ⟨Function.update (fun _ => [(0 : Int)]) "c" (trimRequests [(0 : Int)] 0)⟩) :=
  rateLimit_reject_429 1 ⟨fun _ => [(0 : Int)]⟩ "/x" "c" 0 (by decide) (by decide)

/-! ### C2: eviction on every request -/

/-- C2 counterexample: the claim says exactly the entries older than 60
seconds are dropped, and that eviction happens on every request.  Both
parts fail on the code.  First conjunct: an entry aged exactly 60 seconds
(timestamp `-60` at `now = 0`) is evicted — after the forwarded request is
recorded the stored list is `[0]`, not `[-60, 0]` — although its age is not
greater than 60 seconds (second conjunct).  Third conjunct: a request for
`/health` performs no eviction at all, a stale entry aged 1000 seconds
survives untouched. -/
theorem trim_boundary_counterexample :
    (RateLimitMiddleware.dispatch 5 ⟨fun _ => [(-60 : Int)]⟩ "/x" "c" 0).2.requests "c"
        = [(0 : Int)] ∧
    ¬ ((0 : Int) - (-60) > 60) ∧
    (RateLimitMiddleware.dispatch 5 ⟨fun _ => [(-1000 : Int)]⟩ "/health" "c" 0).2.requests "c"
        = [(-1000 : Int)] := by
  refine ⟨?_, by decide, ?_⟩ <;> decide

/-- C2 amended: on every request whose path is not `/health`, the client's
stored list is trimmed so that exactly the entries aged 60 seconds or more
are dropped and all strictly younger entries are kept (first conjunct,
stating the trim predicate in terms of age), and the stored list after the
dispatch is that trimmed list, possibly with the current timestamp appended
when the request was forwarded (second conjunct). -/
theorem trim_every_request (requests_per_minute : Nat) (st : RateLimitState)
    (path client : String) (now : Int) (hpath : path ≠ "/health") :
    trimRequests (st.requests client) now
        = (st.requests client).filter (fun t => now - t < 60) ∧
    (((RateLimitMiddleware.dispatch requests_per_minute st path client now).2.requests client
        = trimRequests (st.requests client) now) ∨
     ((RateLimitMiddleware.dispatch requests_per_minute st path client now).2.requests client
        = trimRequests (st.requests client) now ++ [now])) := by
  constructor
  · unfold trimRequests
    apply List.filter_congr
    intro t _
    by_cases h : now - t < 60 <;> simp [h] <;> omega
  · unfold RateLimitMiddleware.dispatch
    rw [if_neg hpath]
    by_cases h : (trimRequests (st.requests client) now).length ≥ requests_per_minute
    · left; simp [h, Function.update_same]
    · right; simp [h, Function.update_same]

/-! ### C7: authentication middleware pass-through -/

/-- C7: `AuthenticationMiddleware.dispatch` is a single linear pass-through.
First conjunct: a request whose path starts with one of the public paths is
forwarded with no authentication check — the outcome is `forward none` for
every verification function, so `request.state` is untouched and `verify`
is never consulted.  Second conjunct: any other request whose Authorization
header is absent or does not start with `"Bearer "` receives the 401
response `{"error": "Authentication required"}` with a
`WWW-Authenticate: Bearer` header, and the inner handler is not reached. -/
theorem auth_dispatch_pass_through (verify : String → Except String Nat)
    (req : AuthRequest) :
    ((∃ p ∈ public_paths, pyStartsWith req.path p) →
      AuthenticationMiddleware.dispatch verify req = .forward none) ∧
    ((¬ ∃ p ∈ public_paths, pyStartsWith req.path p) →
      ¬ pyStartsWith (req.authorization.getD "") "Bearer " →
      AuthenticationMiddleware.dispatch verify req =
        .unauthorized { status_code := 401
                        error := "Authentication required"
                        www_authenticate := "Bearer" }) := by
  constructor
  · intro hpub
    have hany : public_paths.any (fun p => pyStartsWith req.path p) = true := by
      rw [List.any_eq_true]
      obtain ⟨p, hp, hs⟩ := hpub
      exact ⟨p, hp, hs⟩
    simp [AuthenticationMiddleware.dispatch, hany]
  · intro hpub hbearer
    have hany : public_paths.any (fun p => pyStartsWith req.path p) = false := by
      rw [List.any_eq_false]
      intro p hp hs
      exact hpub ⟨p, hp, hs⟩
    simp [AuthenticationMiddleware.dispatch, hany, hbearer]

/-- Witness for C7: the public path `/health/live` is forwarded untouched,
and a request to `/users` with no Authorization header receives the fixed
401 response. -/
theorem auth_dispatch_pass_through_witness :
    AuthenticationMiddleware.dispatch (fun _ => .error "no key") ⟨"/health/live", none⟩
        = .forward none ∧
    AuthenticationMiddleware.dispatch (fun _ => .error "no key") ⟨"/users", none⟩
        = .unauthorized { status_code := 401
                          error := "Authentication required"
                          www_authenticate := "Bearer" } :=
  ⟨(auth_dispatch_pass_through (fun _ => .error "no key") ⟨"/health/live", none⟩).1
      (by decide),
   (auth_dispatch_pass_through (fun _ => .error "no key") ⟨"/users", none⟩).2
      (by decide) (by decide)⟩

/-! ### C8: security headers -/

/-- C8: `SecurityHeadersMiddleware.dispatch` returns the inner handler's
response with the five security headers set to their fixed values and
everything else unchanged: status code, body, and every header whose name
is not one of the five. -/
theorem security_headers_frame (resp : HttpResponse) :
    (SecurityHeadersMiddleware.dispatch resp).status_code = resp.status_code ∧
    (SecurityHeadersMiddleware.dispatch resp).body = resp.body ∧
    (SecurityHeadersMiddleware.dispatch resp).headers "X-Content-Type-Options"
        = some "nosniff" ∧
    (SecurityHeadersMiddleware.dispatch resp).headers "X-Frame-Options" = some "DENY" ∧
    (SecurityHeadersMiddleware.dispatch resp).headers "X-XSS-Protection"
        = some "1; mode=block" ∧
    (SecurityHeadersMiddleware.dispatch resp).headers "Strict-Transport-Security"
        = some "max-age=31536000; includeSubDomains" ∧
    (SecurityHeadersMiddleware.dispatch resp).headers "Referrer-Policy"
        = some "strict-origin-when-cross-origin" ∧
    (∀ name, name ∉ securityHeaderNames →
      (SecurityHeadersMiddleware.dispatch resp).headers name = resp.headers name) := by
  refine ⟨rfl, rfl, ?_, ?_, ?_, ?_, ?_, ?_⟩
  · simp [SecurityHeadersMiddleware.dispatch, setHeader, Function.update_apply]
  · simp [SecurityHeadersMiddleware.dispatch, setHeader, Function.update_apply]
  · simp [SecurityHeadersMiddleware.dispatch, setHeader, Function.update_apply]
  · simp [SecurityHeadersMiddleware.dispatch, setHeader, Function.update_apply]
  · simp [SecurityHeadersMiddleware.dispatch, setHeader, Function.update_apply]
  · intro name hnot
    simp only [securityHeaderNames, List.mem_cons, List.not_mem_nil, or_false,
      not_or] at hnot
    obtain ⟨h1, h2, h3, h4, h5⟩ := hnot
    simp [SecurityHeadersMiddleware.dispatch, setHeader, Function.update_apply,
      h1, h2, h3, h4, h5]

/-- Witness for C8: a concrete 200 response with one custom header keeps
that header and its body after the middleware runs. -/
theorem security_headers_frame_witness :
    (SecurityHeadersMiddleware.dispatch
        ⟨200, "ok", fun n => if n = "X-Custom" then some "v" else none⟩).headers "X-Custom"
      = (if "X-Custom" = "X-Custom" then some "v" else none) :=
  (security_headers_frame
      ⟨200, "ok", fun n => if n = "X-Custom" then some "v" else none⟩).2.2.2.2.2.2.2
    "X-Custom" (by decide)

/-! ### C6: fixed validation-error envelope -/

/-- C6: every validation failure is reported through the fixed envelope.
`format_validation_error` yields `error = "Validation failed"` with one
detail per underlying error whose `field` is the error's location path
joined with `'.'`; `validation_exception_handler` builds the same envelope
and returns it with HTTP status 400. -/
theorem validation_error_envelope (now : String) (errors : List PydanticErrorItem) :
    (format_validation_error errors).error = "Validation failed" ∧
    ((format_validation_error errors).details.getD []).length = errors.length ∧
    (validation_exception_handler now errors).status_code = 400 ∧
    (validation_exception_handler now errors).error = "Validation failed" ∧
    (validation_exception_handler now errors).details.length = errors.length ∧
    (∀ (i : Nat) (e : PydanticErrorItem), errors[i]? = some e →
      ((format_validation_error errors).details.getD [])[i]?
          = some { field := String.intercalate "." e.loc, message := e.msg } ∧
      (validation_exception_handler now errors).details[i]?
          = some { field := String.intercalate "." e.loc, message := e.msg,
                   type_ := e.type_ }) := by
  refine ⟨rfl, ?_, rfl, rfl, ?_, ?_⟩
  · simp [format_validation_error]
  · simp [validation_exception_handler]
  · intro i e he
    constructor
    · simp [format_validation_error, List.getElem?_map, he]
    · simp [validation_exception_handler, List.getElem?_map, he]

/-- Witness for C6 at one concrete underlying error. -/
theorem validation_error_envelope_witness :
    ((format_validation_error [⟨["body", "password"], "field required", "value_error.missing"⟩]).details.getD [])[0]?
        = some { field := String.intercalate "." ["body", "password"]
                 message := "field required" } ∧
    (validation_exception_handler "2026-01-01T00:00:00"
        [⟨["body", "password"], "field required", "value_error.missing"⟩]).details[0]?
        = some { field := String.intercalate "." ["body", "password"]
                 message := "field required"
                 type_ := "value_error.missing" } :=
  (validation_error_envelope "2026-01-01T00:00:00"
      [⟨["body", "password"], "field required", "value_error.missing"⟩]).2.2.2.2.2
    0 ⟨["body", "password"], "field required", "value_error.missing"⟩ (by decide)

/-! ### C5: password confirmation equality -/

/-- Helper: `validate_password` only ever returns its input. -/
theorem validate_password_ok_eq (s t : String) (h : validate_password s = .ok t) :
    t = s := by
  unfold validate_password at h
  split at h
  · exact (Except.ok.inj h).symm
  · cases h

/-- C5: validation of `UserRegistration`, `PasswordChange` and
`PasswordReset` succeeds only when the password field (`new_password` for
`PasswordChange`) equals `confirm_password`: any input on which they differ
fails the `passwords_match` root validator (or an earlier check) and is
rejected, so a successful validation implies equality. -/
theorem passwords_match_required :
    (∀ (emailValid : String → Bool) (x : UserRegistrationInput)
        (out : UserRegistrationInput),
      UserRegistration.validate emailValid x = .ok out →
      x.password = x.confirm_password) ∧
    (∀ (x : PasswordChangeInput) (out : PasswordChangeInput),
      PasswordChange.validate x = .ok out →
      x.new_password = x.confirm_password) ∧
    (∀ (x : PasswordResetInput) (out : PasswordResetInput),
      PasswordReset.validate x = .ok out →
      x.password = x.confirm_password) := by
  refine ⟨?_, ?_, ?_⟩
  · intro emailValid x out h
    unfold UserRegistration.validate at h
    split at h; · cases h
    split at h; · cases h
    split at h; · cases h
    split at h
    · cases h
    · rename_i password heq
      have hps := validate_password_ok_eq _ _ heq
      subst hps
      split at h; · cases h
      split at h; · cases h
      split at h; · cases h
      split at h; · cases h
      · rename_i hne
        exact not_ne_iff.mp hne
  · intro x out h
    unfold PasswordChange.validate at h
    split at h; · cases h
    split at h; · cases h
    split at h
    · cases h
    · rename_i new_password heq
      have hps := validate_password_ok_eq _ _ heq
      subst hps
      split at h; · cases h
      split at h; · cases h
      · rename_i hne _
        exact not_ne_iff.mp hne
  · intro x out h
    unfold PasswordReset.validate at h
    split at h; · cases h
    split at h; · cases h
    split at h
    · cases h
    · rename_i password heq
      have hps := validate_password_ok_eq _ _ heq
      subst hps
      split at h; · cases h
      · rename_i hne
        exact not_ne_iff.mp hne

/-- Witness for C5: a concrete successful `PasswordChange` validation. -/
theorem passwords_match_required_witness :
    (⟨"oldsecret", "Password1!", "Password1!"⟩ : PasswordChangeInput).new_password
      = (⟨"oldsecret", "Password1!", "Password1!"⟩ : PasswordChangeInput).confirm_password :=
  passwords_match_required.2.1 ⟨"oldsecret", "Password1!", "Password1!"⟩
    ⟨"oldsecret", "Password1!", "Password1!"⟩ (by rfl)

/-! ### C10: pages computation -/

/-- C10: for every successfully constructed `PaginatedResponse` with
`total ≥ 0`, the `pages` field produced by the `calculate_pages` validator
equals `⌈total / limit⌉` when `limit > 0` and `0` when `limit ≤ 0`,
regardless of the `pages` value `v` supplied by the caller (the validator
never reads `v`), and for `limit ≥ 1` it agrees with the
`(total + limit - 1) // limit` computation inlined in `list_users`. -/
theorem calculate_pages_correct (v total limit : Int) (htotal : 0 ≤ total) :
    (0 < limit →
      PaginatedResponse.calculate_pages v total limit = ⌈(total : ℚ) / (limit : ℚ)⌉) ∧
    (limit ≤ 0 → PaginatedResponse.calculate_pages v total limit = 0) ∧
    (1 ≤ limit →
      PaginatedResponse.calculate_pages v total limit = list_users_pages total limit) := by
  refine ⟨?_, ?_, ?_⟩
  · intro hl
    unfold PaginatedResponse.calculate_pages
    rw [if_pos hl, Int.fdiv_eq_ediv _ (le_of_lt hl)]
    set q : Int := (total + limit - 1) / limit with hq
    have hmod : limit * q + (total + limit - 1) % limit = total + limit - 1 :=
      Int.ediv_add_emod _ _
    have hr0 : 0 ≤ (total + limit - 1) % limit := Int.emod_nonneg _ (ne_of_gt hl)
    have hrlt : (total + limit - 1) % limit < limit := Int.emod_lt_of_pos _ hl
    have hlq : (0 : ℚ) < (limit : ℚ) := by exact_mod_cast hl
    symm
    rw [Int.ceil_eq_iff]
    constructor
    · rw [lt_div_iff hlq]
      have : (q - 1) * limit < total := by nlinarith
      exact_mod_cast this
    · rw [div_le_iff hlq]
      have : total ≤ q * limit := by nlinarith
      exact_mod_cast this
  · intro hl
    unfold PaginatedResponse.calculate_pages
    rw [if_neg (not_lt.mpr hl)]
  · intro hl
    unfold PaginatedResponse.calculate_pages list_users_pages
    rw [if_pos (by omega : (0 : Int) < limit)]

/-- Witness for C10: `total = 5`, `limit = 2`, supplied `pages = 99`. -/
theorem calculate_pages_correct_witness :
    PaginatedResponse.calculate_pages 99 5 2 = ⌈(5 : ℚ) / (2 : ℚ)⌉ ∧
    PaginatedResponse.calculate_pages 99 5 2 = list_users_pages 5 2 := by
  have h := calculate_pages_correct 99 5 2 (by norm_num)
  exact ⟨h.1 (by norm_num), h.2.2 (by norm_num)⟩

/-! ### C4: password validation alphabet -/

/-- C4 counterexample: the string `"Aa1#aaaa"` is 8 characters long and
contains a lowercase letter, an uppercase letter, a digit and a special
(non-alphanumeric) character, so by the claim `validate_password` should
return it unchanged; but `#` is outside the pattern's character class
`[A-Za-z\d@$!%*?&]`, so the code raises `ValueError` instead. -/
theorem validate_password_counterexample :
    (8 ≤ ("Aa1#aaaa" : String).length ∧ ("Aa1#aaaa" : String).length ≤ 128 ∧
     (∃ c ∈ ("Aa1#aaaa" : String).data, c.isLower) ∧
     (∃ c ∈ ("Aa1#aaaa" : String).data, c.isUpper) ∧
     (∃ c ∈ ("Aa1#aaaa" : String).data, c.isDigit) ∧
     (∃ c ∈ ("Aa1#aaaa" : String).data, ¬ c.isAlphanum)) ∧
    validate_password "Aa1#aaaa" = .error passwordErrorMsg := by
  refine ⟨by decide, by rfl⟩

/-- C4 amended: for every ASCII string (Python's `\d` matches Unicode
digits too, so non-ASCII inputs are outside this characterization),
`validate_password` returns its input unchanged exactly for the strings
accepted by `PASSWORD_PATTERN`: strings which — possibly after discarding
one final newline, which `$` tolerates — are 8 to 128 characters drawn
only from letters, digits and `@$!%*?&`, with at least one lowercase
letter, one uppercase letter, one digit and one character of `@$!%*?&`;
every other ASCII string raises `ValueError` with the fixed message. -/
theorem validate_password_characterization (s : String)
    (hascii : ∀ c ∈ s.data, c.toNat < 128) :
    (validate_password s = .ok s ↔
      goodPasswordChars s.data ∨
        (s.data.getLast? = some '\n' ∧ goodPasswordChars s.data.dropLast)) ∧
    (validate_password s = .ok s ∨ validate_password s = .error passwordErrorMsg) := by
  have hb : ∀ l : List Char, passwordCore l = true ↔ goodPasswordChars l := by
    intro l
    unfold passwordCore goodPasswordChars
    simp only [Bool.and_eq_true, List.any_eq_true, List.all_eq_true,
      decide_eq_true_eq]
    tauto
  have hm : PASSWORD_PATTERN_matches s = true ↔
      (goodPasswordChars s.data ∨
        (s.data.getLast? = some '\n' ∧ goodPasswordChars s.data.dropLast)) := by
    unfold PASSWORD_PATTERN_matches reMatchAnchored
    simp only [Bool.or_eq_true, Bool.and_eq_true, decide_eq_true_eq, hb]
  constructor
  · constructor
    · intro h
      by_cases hp : PASSWORD_PATTERN_matches s = true
      · exact hm.mp hp
      · unfold validate_password at h
        rw [if_neg hp] at h
        cases h
    · intro h
      unfold validate_password
      rw [if_pos (hm.mpr h)]
  · unfold validate_password
    split
    · exact Or.inl rfl
    · exact Or.inr rfl

/-- Witness for C4 (amended): a concrete accepted password. -/
theorem validate_password_characterization_witness :
    validate_password "Password1!" = .ok "Password1!" :=
  (validate_password_characterization "Password1!" (by decide)).1.mpr
    (Or.inl (by decide))

/-! ### C9: slug generation -/

/-- Helper: every character of `collapseSeps l` is a hyphen or a
non-separator character of `l`. -/
theorem collapseSeps_mem : ∀ {l : List Char} {c : Char}, c ∈ collapseSeps l →
    c = '-' ∨ (c ∈ l ∧ slugSepChar c = false) := by
  intro l
  induction l with
  | nil => intro c h; simp [collapseSeps] at h
  | cons x rest ih =>
    intro c h
    cases rest with
    | nil =>
      by_cases hx : slugSepChar x = true
      · simp [collapseSeps, hx] at h
        exact Or.inl h
      · simp [collapseSeps, hx] at h
        subst h
        exact Or.inr ⟨List.mem_cons_self _ _, Bool.not_eq_true _ ▸ hx⟩
    | cons y rest' =>
      by_cases hxy : (slugSepChar x && slugSepChar y) = true
      · simp only [collapseSeps, hxy, if_true] at h
        rcases ih h with h1 | ⟨h1, h2⟩
        · exact Or.inl h1
        · exact Or.inr ⟨List.mem_cons_of_mem _ h1, h2⟩
      · simp only [collapseSeps, hxy, if_false, Bool.not_eq_true] at h
        rcases List.mem_cons.mp h with h1 | h1
        · by_cases hx : slugSepChar x = true
          · rw [if_pos hx] at h1
            exact Or.inl h1
          · rw [if_neg hx] at h1
            subst h1
            exact Or.inr ⟨List.mem_cons_self _ _, Bool.not_eq_true _ ▸ hx⟩
        · rcases ih h1 with h2 | ⟨h2, h3⟩
          · exact Or.inl h2
          · exact Or.inr ⟨List.mem_cons_of_mem _ h2, h3⟩

/-- Helper: non-separator characters of `l` survive `collapseSeps`. -/
theorem collapseSeps_mem_of : ∀ {l : List Char} {c : Char}, c ∈ l →
    slugSepChar c = false → c ∈ collapseSeps l := by
  intro l
  induction l with
  | nil => intro c h; cases h
  | cons x rest ih =>
    intro c hc hs
    cases rest with
    | nil =>
      have hcx : c = x := by simpa using hc
      subst hcx
      simp [collapseSeps, hs]
    | cons y rest' =>
      by_cases hxy : (slugSepChar x && slugSepChar y) = true
      · have hxs : slugSepChar x = true := (Bool.and_eq_true _ _ |>.mp hxy).1
        have hcx : c ≠ x := by
          intro e; subst e; rw [hxs] at hs; cases hs
        have hmem : c ∈ y :: rest' := by
          rcases List.mem_cons.mp hc with h | h
          · exact absurd h hcx
          · exact h
        simp only [collapseSeps, hxy, if_true]
        exact ih hmem hs
      · simp only [collapseSeps, hxy, if_false, Bool.not_eq_true]
        rcases List.mem_cons.mp hc with h | h
        · subst h
          simp [hs]
        · exact List.mem_cons_of_mem _ (ih h hs)

/-- Helper: `collapseSeps` keeps a non-separator head in place. -/
theorem collapseSeps_cons_of_not (y : Char) (rest : List Char)
    (hy : slugSepChar y = false) :
    ∃ t, collapseSeps (y :: rest) = y :: t := by
  cases rest with
  | nil => exact ⟨[], by simp [collapseSeps, hy]⟩
  | cons z rest' =>
    refine ⟨collapseSeps (z :: rest'), ?_⟩
    simp [collapseSeps, hy]

/-- Helper: `collapseSeps` never produces two adjacent hyphens. -/
theorem collapseSeps_chain : ∀ (l : List Char),
    List.Chain' (fun a b : Char => ¬(a = '-' ∧ b = '-')) (collapseSeps l) := by
  intro l
  induction l with
  | nil => simp [collapseSeps]
  | cons x rest ih =>
    cases rest with
    | nil =>
      by_cases hx : slugSepChar x = true <;>
        simp [collapseSeps, hx, List.chain'_singleton]
    | cons y rest' =>
      by_cases hxy : (slugSepChar x && slugSepChar y) = true
      · simpa only [collapseSeps, hxy, if_true] using ih
      · have hxy' : (slugSepChar x && slugSepChar y) = false := by
          cases h : (slugSepChar x && slugSepChar y)
          · rfl
          · exact absurd h hxy
        have hcol : collapseSeps (x :: y :: rest')
            = (if slugSepChar x then '-' else x) :: collapseSeps (y :: rest') := by
          simp only [collapseSeps, hxy', Bool.false_eq_true, if_false]
        rw [hcol, List.chain'_cons']
        refine ⟨?_, ih⟩
        intro b hb
        by_cases hx : slugSepChar x = true
        · have hy : slugSepChar y = false := by
            cases hsy : slugSepChar y
            · rfl
            · exact absurd (by rw [hx, hsy]; rfl) hxy
          obtain ⟨t, ht⟩ := collapseSeps_cons_of_not y rest' hy
          rw [ht] at hb
          simp only [List.head?_cons, Option.mem_def, Option.some.injEq] at hb
          subst hb
          have hyh : y ≠ '-' := by
            intro e; subst e; simp [slugSepChar, pythonIsSpace] at hy
          exact fun hcon => hyh hcon.2
        · have hxh : x ≠ '-' := by
            intro e; subst e; simp [slugSepChar, pythonIsSpace] at hx
          rw [if_neg hx]
          exact fun hcon => hxh hcon.1

/-- Helper: a left-to-right slug scan succeeds on any nonempty-group tail:
characters are `[a-z0-9]` or `-`, no two hyphens are adjacent, and the list
does not end in a hyphen. -/
theorem slugCore_true_of : ∀ (l : List Char),
    (∀ c ∈ l, slugBodyChar c = true ∨ c = '-') →
    List.Chain' (fun a b : Char => ¬(a = '-' ∧ b = '-')) l →
    l.getLast? ≠ some '-' →
    slugCore l true = true := by
  intro l
  induction l with
  | nil => intro _ _ _; rfl
  | cons c rest ih =>
    intro hall hch hlast
    by_cases hb : slugBodyChar c = true
    · rw [show slugCore (c :: rest) true = slugCore rest true from by
        simp [slugCore, hb]]
      refine ih (fun d hd => hall d (List.mem_cons_of_mem _ hd)) hch.tail ?_
      cases rest with
      | nil => simp
      | cons d t => rw [List.getLast?_cons_cons] at hlast; exact hlast
    · have hc : c = '-' := (hall c (List.mem_cons_self _ _)).resolve_left hb
      subst hc
      cases rest with
      | nil => simp at hlast
      | cons d t =>
        have hr : ¬('-' = '-' ∧ d = '-') := (List.chain'_cons.mp hch).1
        have hd' : d ≠ '-' := fun e => hr ⟨rfl, e⟩
        have hd : slugBodyChar d = true :=
          (hall d (List.mem_cons_of_mem _ (List.mem_cons_self _ _))).resolve_right hd'
        have htail := ih (fun e he => hall e (List.mem_cons_of_mem _ he)) hch.tail
          (by rwa [List.getLast?_cons_cons] at hlast)
        rw [show slugCore ('-' :: d :: t) true = slugCore (d :: t) false from by
          simp [slugCore, slugBodyChar]]
        rw [show slugCore (d :: t) false = slugCore t true from by simp [slugCore, hd]]
        rw [show slugCore (d :: t) true = slugCore t true from by
          simp [slugCore, hd]] at htail
        exact htail

/-- Helper: a character that fails the predicate survives `dropWhile`. -/
theorem mem_dropWhile_of (p : Char → Bool) : ∀ (l : List Char) (c : Char),
    c ∈ l → p c = false → c ∈ l.dropWhile p := by
  intro l
  induction l with
  | nil => intro c hc _; cases hc
  | cons x rest ih =>
    intro c hc hp
    by_cases hx : p x = true
    · rw [List.dropWhile_cons_of_pos hx]
      rcases List.mem_cons.mp hc with h | h
      · subst h; rw [hp] at hx; cases hx
      · exact ih c h hp
    · rw [List.dropWhile_cons_of_neg hx]
      exact hc

/-- Helper: after `dropWhile p`, the head does not satisfy `p`. -/
theorem head?_dropWhile_ne (p : Char → Bool) (l : List Char) (c : Char)
    (h : (l.dropWhile p).head? = some c) : p c = false := by
  have hx := List.head?_dropWhile_not p l
  rw [h] at hx
  exact hx

/-- Helper fact about the 128 ASCII characters: a lowered ASCII character
kept by the slug filter is a body character unless it is a separator. -/
theorem ascii_lower_body (n : Nat) (hn : n < 128) :
    slugKeepChar (Char.toLower (Char.ofNat n)) = true →
    slugSepChar (Char.toLower (Char.ofNat n)) = false →
    slugBodyChar (Char.toLower (Char.ofNat n)) = true := by
  revert hn
  revert n
  decide

/-- Helper fact about the 128 ASCII characters: lowering an alphanumeric
ASCII character yields a kept, non-separator character. -/
theorem ascii_alnum_kept (n : Nat) (hn : n < 128) :
    (Char.ofNat n).isAlphanum = true →
    slugKeepChar (Char.toLower (Char.ofNat n)) = true ∧
      slugSepChar (Char.toLower (Char.ofNat n)) = false := by
  revert hn
  revert n
  decide

/-- Helper: the collapse-and-strip tail of the slug pipeline produces a
string matching the slug grammar, given that every non-separator input
character is a body character and at least one such character exists. -/
theorem stripHyphens_collapse_good (l : List Char)
    (hgood : ∀ c ∈ l, slugSepChar c = false → slugBodyChar c = true)
    (hex : ∃ c ∈ l, slugSepChar c = false) :
    slugCore (stripHyphens (collapseSeps l)) false = true := by
  have hall3 : ∀ c ∈ collapseSeps l, slugBodyChar c = true ∨ c = '-' := by
    intro c hc
    rcases collapseSeps_mem hc with h | ⟨hm, hs⟩
    · exact Or.inr h
    · exact Or.inl (hgood c hm hs)
  have hch3 := collapseSeps_chain l
  -- the surviving non-separator character
  obtain ⟨c0, hc0m, hc0s⟩ := hex
  have hne0 : c0 ≠ '-' := by
    intro e; subst e; simp [slugSepChar, pythonIsSpace] at hc0s
  have hdec0 : (fun c : Char => decide (c = '-')) c0 = false := by simp [hne0]
  have hmem3 : c0 ∈ collapseSeps l := collapseSeps_mem_of hc0m hc0s
  have hmemM : c0 ∈ (collapseSeps l).dropWhile (fun c => decide (c = '-')) :=
    mem_dropWhile_of _ _ _ hmem3 hdec0
  have hmemN : c0 ∈
      (((collapseSeps l).dropWhile (fun c => decide (c = '-'))).reverse.dropWhile
        (fun c => decide (c = '-'))) :=
    mem_dropWhile_of _ _ _ (List.mem_reverse.mpr hmemM) hdec0
  have hmem4 : c0 ∈ stripHyphens (collapseSeps l) := List.mem_reverse.mpr hmemN
  -- characters of the stripped list
  have hsub4 : ∀ c ∈ stripHyphens (collapseSeps l), c ∈ collapseSeps l := by
    intro c hc
    have h1 := List.mem_reverse.mp hc
    have h2 := (List.dropWhile_suffix _).subset h1
    have h3 := List.mem_reverse.mp h2
    exact (List.dropWhile_suffix _).subset h3
  -- no adjacent hyphens in the stripped list
  have hch4 : List.Chain' (fun a b : Char => ¬(a = '-' ∧ b = '-'))
      (stripHyphens (collapseSeps l)) := by
    have h1 : List.Chain' (fun a b : Char => ¬(a = '-' ∧ b = '-'))
        ((collapseSeps l).dropWhile (fun c => decide (c = '-'))) :=
      hch3.suffix (List.dropWhile_suffix _)
    have h2 : List.Chain' (fun a b : Char => ¬(a = '-' ∧ b = '-'))
        ((collapseSeps l).dropWhile (fun c => decide (c = '-'))).reverse := by
      rw [List.chain'_reverse]
      exact h1.imp (fun a b hab hcon => hab ⟨hcon.2, hcon.1⟩)
    have h3 : List.Chain' (fun a b : Char => ¬(a = '-' ∧ b = '-'))
        (((collapseSeps l).dropWhile (fun c => decide (c = '-'))).reverse.dropWhile
          (fun c => decide (c = '-'))) :=
      h2.suffix (List.dropWhile_suffix _)
    rw [show stripHyphens (collapseSeps l)
        = (((collapseSeps l).dropWhile (fun c => decide (c = '-'))).reverse.dropWhile
            (fun c => decide (c = '-'))).reverse from rfl]
    rw [List.chain'_reverse]
    exact h3.imp (fun a b hab hcon => hab ⟨hcon.2, hcon.1⟩)
  -- the stripped list does not end in a hyphen
  have hlast4 : (stripHyphens (collapseSeps l)).getLast? ≠ some '-' := by
    rw [show stripHyphens (collapseSeps l)
        = (((collapseSeps l).dropWhile (fun c => decide (c = '-'))).reverse.dropWhile
            (fun c => decide (c = '-'))).reverse from rfl]
    rw [List.getLast?_reverse]
    intro h
    have := head?_dropWhile_ne _ _ _ h
    simp at this
  -- the stripped list does not begin with a hyphen
  have hhead4 : ∀ c t, stripHyphens (collapseSeps l) = c :: t → c ≠ '-' := by
    intro c t hct hc
    subst hc
    have hh : (stripHyphens (collapseSeps l)).head? = some '-' := by rw [hct]; rfl
    rw [show stripHyphens (collapseSeps l)
        = (((collapseSeps l).dropWhile (fun c => decide (c = '-'))).reverse.dropWhile
            (fun c => decide (c = '-'))).reverse from rfl] at hh
    rw [List.head?_reverse] at hh
    obtain ⟨pre, hpre⟩ : (((collapseSeps l).dropWhile
        (fun c => decide (c = '-'))).reverse.dropWhile (fun c => decide (c = '-'))) <:+
        ((collapseSeps l).dropWhile (fun c => decide (c = '-'))).reverse :=
      List.dropWhile_suffix _
    have hm' : ((collapseSeps l).dropWhile (fun c => decide (c = '-'))).reverse.getLast?
        = some '-' := by
      rw [← hpre, List.getLast?_append, hh]
      rfl
    rw [List.getLast?_reverse] at hm'
    have := head?_dropWhile_ne _ _ _ hm'
    simp at this
  -- assemble via the slug scanner
  obtain ⟨c1, t, hct⟩ : ∃ c1 t, stripHyphens (collapseSeps l) = c1 :: t := by
    cases hl : stripHyphens (collapseSeps l) with
    | nil => rw [hl] at hmem4; cases hmem4
    | cons a b => exact ⟨a, b, rfl⟩
  have hc1 : slugBodyChar c1 = true :=
    (hall3 c1 (hsub4 c1 (hct ▸ List.mem_cons_self _ _))).resolve_right (hhead4 c1 t hct)
  have hcore : slugCore t true = true := by
    apply slugCore_true_of
    · intro d hd
      exact hall3 d (hsub4 d (hct ▸ List.mem_cons_of_mem _ hd))
    · have h := hch4; rw [hct] at h; exact h.tail
    · cases t with
      | nil => simp
      | cons d u =>
        have h := hlast4
        rw [hct, List.getLast?_cons_cons] at h
        exact h
  rw [hct]
  rw [show slugCore (c1 :: t) false = slugCore t true from by simp [slugCore, hc1]]
  exact hcore

/-- C9 counterexample: on the input `"!!!"` (every character removed by the
cleanup substitution) `slug_generator` returns the empty string, which does
not match `SLUG_PATTERN` — the pattern requires at least one `[a-z0-9]`
character.  The claim quantifies over every input string, so it fails. -/
theorem slug_generator_counterexample :
    slug_generator "!!!" = "" ∧ SLUG_PATTERN_matches "" = false :=
  ⟨rfl, rfl⟩

/-- C9 amended: for every ASCII input string containing at least one
alphanumeric character, the output of `slug_generator` matches
`SLUG_PATTERN` (a nonempty sequence of lowercase-or-digit groups separated
by single hyphens, no leading or trailing hyphen). -/
theorem slug_generator_matches_pattern (v : String)
    (hascii : ∀ c ∈ v.data, c.toNat < 128)
    (halnum : ∃ c ∈ v.data, c.isAlphanum = true) :
    SLUG_PATTERN_matches (slug_generator v) = true := by
  have hcore := stripHyphens_collapse_good ((v.data.map Char.toLower).filter slugKeepChar)
    ?_ ?_
  · show (slugCore (slug_generator v).data false
        || ((slug_generator v).data.getLast? = some '\n'
            && slugCore (slug_generator v).data.dropLast false)) = true
    rw [show (slug_generator v).data
        = stripHyphens (collapseSeps ((v.data.map Char.toLower).filter slugKeepChar))
        from rfl]
    rw [hcore, Bool.true_or]
  · intro c hc hs
    rcases List.mem_filter.mp hc with ⟨hc1, hkeep⟩
    rcases List.mem_map.mp hc1 with ⟨x, hx, rfl⟩
    have hfact := ascii_lower_body x.toNat (hascii x hx)
    rw [Char.ofNat_toNat] at hfact
    exact hfact hkeep hs
  · obtain ⟨c0, hc0v, hc0a⟩ := halnum
    have hfact := ascii_alnum_kept c0.toNat (hascii c0 hc0v)
    rw [Char.ofNat_toNat] at hfact
    obtain ⟨hkeep0, hsep0⟩ := hfact hc0a
    exact ⟨Char.toLower c0,
      List.mem_filter.mpr ⟨List.mem_map_of_mem _ hc0v, hkeep0⟩, hsep0⟩

/-- Witness for C9 (amended) on the concrete title `"Hello, World_ 1!"`. -/
theorem slug_generator_matches_pattern_witness :
    SLUG_PATTERN_matches (slug_generator "Hello, World_ 1!") = true :=
  slug_generator_matches_pattern "Hello, World_ 1!" (by decide) (by decide)

/-- Witness for C2 (amended) at a concrete state: entries aged 61 and 59
seconds; only the strictly younger one survives the trim. -/
theorem trim_every_request_witness :
    trimRequests ((⟨fun _ => [(-61 : Int), -59]⟩ : RateLimitState).requests "c") 0
        = ((⟨fun _ => [(-61 : Int), -59]⟩ : RateLimitState).requests "c").filter
            (fun t => (0 : Int) - t < 60) ∧
    (((RateLimitMiddleware.dispatch 5 ⟨fun _ => [(-61 : Int), -59]⟩ "/x" "c" 0).2.requests "c"
        = trimRequests ((⟨fun _ => [(-61 : Int), -59]⟩ : RateLimitState).requests "c") 0) ∨
     ((RateLimitMiddleware.dispatch 5 ⟨fun _ => [(-61 : Int), -59]⟩ "/x" "c" 0).2.requests "c"
        = trimRequests ((⟨fun _ => [(-61 : Int), -59]⟩ : RateLimitState).requests "c") 0
          ++ [(0 : Int)])) :=
  trim_every_request 5 ⟨fun _ => [(-61 : Int), -59]⟩ "/x" "c" 0 (by decide)

/-! ### C1: sliding-window bound -/

/-- Helper: trimming at a later time subsumes an earlier trim. -/
theorem trim_trim (l : List Int) (t now : Int) (h : t ≤ now) :
    trimRequests (trimRequests l t) now = trimRequests l now := by
  unfold trimRequests
  rw [List.filter_filter]
  apply List.filter_congr
  intro x _
  by_cases hx : x > now - 60
  · have hx' : x > t - 60 := by omega
    simp [hx, hx']
  · simp [hx]

/-- Helper: window counts add over list concatenation. -/
theorem windowCount_append (a b : List Int) (hi : Int) :
    windowCount (a ++ b) hi = windowCount a hi + windowCount b hi := by
  simp [windowCount, List.filter_append]

/-- Helper: window count of a singleton. -/
theorem windowCount_singleton (t hi : Int) :
    windowCount [t] hi = if hi - 60 < t ∧ t ≤ hi then 1 else 0 := by
  by_cases h1 : hi - 60 < t <;> by_cases h2 : t ≤ hi <;>
    simp [windowCount, h1, h2]

/-- Helper: timestamps in the window ending at `hi` all survive a trim at
any time `t ≤ hi`, so the window count is bounded by the trimmed length. -/
theorem windowCount_le_trim (l : List Int) (t hi : Int) (h : t ≤ hi) :
    windowCount l hi ≤ (trimRequests l t).length := by
  unfold windowCount trimRequests
  apply List.Sublist.length_le
  apply List.monotone_filter_right
  intro a ha
  simp only [Bool.and_eq_true, decide_eq_true_eq] at ha ⊢
  omega

/-- Helper: unfolding `recordedTimes` over one trace entry. -/
theorem recordedTimes_cons (e : RLEvent) (o : RLOutcome)
    (tr : List (RLEvent × RLOutcome)) (c : String) :
    recordedTimes ((e, o) :: tr) c =
      (if o.isForwarded = true ∧ e.client = c ∧ e.path ≠ "/health"
        then [e.time] else []) ++ recordedTimes tr c := by
  by_cases h1 : o.isForwarded = true <;> by_cases h2 : e.client = c <;>
    by_cases h3 : e.path = "/health" <;>
      simp [recordedTimes, List.filter_cons, h1, h2, h3]

/-- Helper: projection of the rate-limit state constructor. -/
theorem RateLimitState.requests_mk (f : String → List Int) :
    (⟨f⟩ : RateLimitState).requests = f := rfl

/-- Helper: the central invariant induction.  Processing events with
nondecreasing timestamps from a state `st` whose trimmed views agree with a
record `R` of previously recorded timestamps (all `≤ T`), where `R` already
satisfies the window bound, keeps every 60-second window of the combined
record within `limit`. -/
theorem rl_window_aux (limit : Nat) :
    ∀ (events : List RLEvent) (st : RateLimitState) (R : String → List Int) (T : Int),
      (∀ c now, T ≤ now →
        trimRequests (st.requests c) now = trimRequests (R c) now) →
      (∀ c t, t ∈ R c → t ≤ T) →
      (∀ c hi, windowCount (R c) hi ≤ limit) →
      (∀ e ∈ events, T ≤ e.time) →
      List.Pairwise (fun a b => a.time ≤ b.time) events →
      ∀ c hi,
        windowCount (R c ++ recordedTimes (runRLTrace limit st events) c) hi ≤ limit := by
  intro events
  induction events with
  | nil =>
    intro st R T hK hB hW hTev hpw c hi
    simp only [runRLTrace, recordedTimes, List.filter_nil, List.map_nil, List.append_nil]
    exact hW c hi
  | cons e es ih =>
    intro st R T hK hB hW hTev hpw c hi
    have hTe : T ≤ e.time := hTev e (List.mem_cons_self _ _)
    have hTes : ∀ e' ∈ es, e.time ≤ e'.time := (List.pairwise_cons.mp hpw).1
    have hpw' : List.Pairwise (fun a b => a.time ≤ b.time) es :=
      (List.pairwise_cons.mp hpw).2
    rw [show runRLTrace limit st (e :: es)
        = (e, (RateLimitMiddleware.dispatch limit st e.path e.client e.time).1)
          :: runRLTrace limit
              (RateLimitMiddleware.dispatch limit st e.path e.client e.time).2 es
        from rfl]
    by_cases hpath : e.path = "/health"
    · have hd : RateLimitMiddleware.dispatch limit st e.path e.client e.time
          = (.forwarded, st) := by
        simp [RateLimitMiddleware.dispatch, hpath]
      rw [hd, recordedTimes_cons, if_neg (fun hcon => hcon.2.2 hpath)]
      simp only [List.nil_append]
      exact ih st R e.time
        (fun c' now hnow => hK c' now (le_trans hTe hnow))
        (fun c' t ht => le_trans (hB c' t ht) hTe)
        hW hTes hpw' c hi
    · by_cases hfull : (trimRequests (st.requests e.client) e.time).length ≥ limit
      · -- rejected: nothing recorded, the client's list is replaced by its trim
        have hd : RateLimitMiddleware.dispatch limit st e.path e.client e.time
            = (.rejected (rateLimit429 limit),
               ⟨Function.update st.requests e.client
                 (trimRequests (st.requests e.client) e.time)⟩) := by
          simp [RateLimitMiddleware.dispatch, hpath, hfull, rateLimit429]
        rw [hd, recordedTimes_cons,
          if_neg (fun hcon => by simpa [RLOutcome.isForwarded] using hcon.1)]
        simp only [List.nil_append]
        refine ih _ R e.time ?_ (fun c' t ht => le_trans (hB c' t ht) hTe) hW hTes hpw' c hi
        intro c' now hnow
        rw [RateLimitState.requests_mk]
        by_cases hc' : c' = e.client
        · rw [hc', Function.update_same, trim_trim _ _ _ hnow]
          exact hK e.client now (le_trans hTe hnow)
        · rw [Function.update_noteq hc']
          exact hK c' now (le_trans hTe hnow)
      · -- forwarded: the timestamp is recorded for the client
        have hd : RateLimitMiddleware.dispatch limit st e.path e.client e.time
            = (.forwarded,
               ⟨Function.update st.requests e.client
                 (trimRequests (st.requests e.client) e.time ++ [e.time])⟩) := by
          simp [RateLimitMiddleware.dispatch, hpath, hfull]
        have hlen : (trimRequests (st.requests e.client) e.time).length < limit :=
          lt_of_not_ge hfull
        have hK' : ∀ c' now, e.time ≤ now →
            trimRequests ((⟨Function.update st.requests e.client
              (trimRequests (st.requests e.client) e.time ++ [e.time])⟩ :
                RateLimitState).requests c') now
              = trimRequests
                  (Function.update R e.client (R e.client ++ [e.time]) c') now := by
          intro c' now hnow
          rw [RateLimitState.requests_mk]
          by_cases hc' : c' = e.client
          · rw [hc', Function.update_same, Function.update_same]
            have key : trimRequests (trimRequests (st.requests e.client) e.time) now
                = trimRequests (R e.client) now := by
              rw [trim_trim _ _ _ hnow]
              exact hK e.client now (le_trans hTe hnow)
            unfold trimRequests at key ⊢
            rw [List.filter_append, List.filter_append, key]
          · rw [Function.update_noteq hc', Function.update_noteq hc']
            exact hK c' now (le_trans hTe hnow)
        have hB' : ∀ c' t, t ∈ Function.update R e.client (R e.client ++ [e.time]) c' →
            t ≤ e.time := by
          intro c' t ht
          by_cases hc' : c' = e.client
          · rw [hc', Function.update_same] at ht
            rcases List.mem_append.mp ht with h | h
            · exact le_trans (hB _ t h) hTe
            · rw [List.mem_singleton.mp h]
          · rw [Function.update_noteq hc'] at ht
            exact le_trans (hB c' t ht) hTe
        have hW' : ∀ c' hi',
            windowCount (Function.update R e.client (R e.client ++ [e.time]) c') hi'
              ≤ limit := by
          intro c' hi'
          by_cases hc' : c' = e.client
          · rw [hc', Function.update_same, windowCount_append, windowCount_singleton]
            by_cases hin : hi' - 60 < e.time ∧ e.time ≤ hi'
            · rw [if_pos hin]
              have h2 : windowCount (R e.client) hi'
                  ≤ (trimRequests (R e.client) e.time).length :=
                windowCount_le_trim _ _ _ hin.2
              rw [← hK e.client e.time hTe] at h2
              omega
            · rw [if_neg hin]
              have := hW e.client hi'
              omega
          · rw [Function.update_noteq hc']
            exact hW c' hi'
        rw [hd, recordedTimes_cons]
        by_cases hc : e.client = c
        · rw [if_pos ⟨rfl, hc, hpath⟩, ← hc]
          rw [show R e.client ++ ([e.time] ++ recordedTimes (runRLTrace limit
              (⟨Function.update st.requests e.client
                (trimRequests (st.requests e.client) e.time ++ [e.time])⟩ :
                  RateLimitState) es) e.client)
            = (R e.client ++ [e.time]) ++ recordedTimes (runRLTrace limit
              (⟨Function.update st.requests e.client
                (trimRequests (st.requests e.client) e.time ++ [e.time])⟩ :
                  RateLimitState) es) e.client from (List.append_assoc _ _ _).symm]
          have happ := ih _ (Function.update R e.client (R e.client ++ [e.time]))
            e.time hK' hB' hW' hTes hpw' e.client hi
          rw [Function.update_same] at happ
          exact happ
        · rw [if_neg (fun hcon => hc hcon.2.1)]
          simp only [List.nil_append]
          have happ := ih _ (Function.update R e.client (R e.client ++ [e.time]))
            e.time hK' hB' hW' hTes hpw' c hi
          rw [Function.update_noteq (fun h => hc h.symm)] at happ
          exact happ

/-- Helper: the per-client list length never grows beyond the limit. -/
theorem rl_length_aux (limit : Nat) :
    ∀ (events : List RLEvent) (st : RateLimitState),
      (∀ c, (st.requests c).length ≤ limit) →
      ∀ c, ((runRL limit st events).requests c).length ≤ limit := by
  intro events
  induction events with
  | nil => intro st h c; exact h c
  | cons e es ih =>
    intro st h c
    rw [show runRL limit st (e :: es)
        = runRL limit (RateLimitMiddleware.dispatch limit st e.path e.client e.time).2 es
        from rfl]
    apply ih
    intro c'
    by_cases hpath : e.path = "/health"
    · rw [show (RateLimitMiddleware.dispatch limit st e.path e.client e.time).2 = st
        from by simp [RateLimitMiddleware.dispatch, hpath]]
      exact h c'
    · by_cases hfull : (trimRequests (st.requests e.client) e.time).length ≥ limit
      · rw [show (RateLimitMiddleware.dispatch limit st e.path e.client e.time).2
            = ⟨Function.update st.requests e.client
                (trimRequests (st.requests e.client) e.time)⟩
          from by simp [RateLimitMiddleware.dispatch, hpath, hfull]]
        rw [RateLimitState.requests_mk]
        by_cases hc' : c' = e.client
        · rw [hc', Function.update_same]
          exact le_trans (List.length_filter_le _ _) (h e.client)
        · rw [Function.update_noteq hc']
          exact h c'
      · rw [show (RateLimitMiddleware.dispatch limit st e.path e.client e.time).2
            = ⟨Function.update st.requests e.client
                (trimRequests (st.requests e.client) e.time ++ [e.time])⟩
          from by simp [RateLimitMiddleware.dispatch, hpath, hfull]]
        rw [RateLimitState.requests_mk]
        by_cases hc' : c' = e.client
        · rw [hc', Function.update_same, List.length_append]
          have := lt_of_not_ge hfull
          simp only [List.length_singleton]
          omega
        · rw [Function.update_noteq hc']
          exact h c'

/-- Helper: every outcome in a trace is a forward or the fixed 429. -/
theorem rl_outcomes_aux (limit : Nat) :
    ∀ (events : List RLEvent) (st : RateLimitState),
      ∀ p ∈ runRLTrace limit st events,
        p.2 = RLOutcome.forwarded ∨ p.2 = RLOutcome.rejected (rateLimit429 limit) := by
  intro events
  induction events with
  | nil => intro st p hp; cases hp
  | cons e es ih =>
    intro st p hp
    rw [show runRLTrace limit st (e :: es)
        = (e, (RateLimitMiddleware.dispatch limit st e.path e.client e.time).1)
          :: runRLTrace limit
              (RateLimitMiddleware.dispatch limit st e.path e.client e.time).2 es
        from rfl] at hp
    rcases List.mem_cons.mp hp with h | h
    · subst h
      by_cases hpath : e.path = "/health"
      · left; simp [RateLimitMiddleware.dispatch, hpath]
      · by_cases hfull : (trimRequests (st.requests e.client) e.time).length ≥ limit
        · right; simp [RateLimitMiddleware.dispatch, hpath, hfull]
        · left; simp [RateLimitMiddleware.dispatch, hpath, hfull]
    · exact ih _ p h

/-- C1 counterexample: with `requests_per_minute = 1`, client `"c"` sends a
request for `/a` at time 0 (forwarded and recorded) and one for `/health`
at time 1.  Both are forwarded to the inner handler — the trace is two
`forwarded` outcomes — and both fall in the sliding window `(-59, 1]`, so
2 > 1 requests of the client were forwarded inside one 60-second window and
the second received no 429: the `/health` bypass breaks the claimed bound
on forwarded requests. -/
theorem rateLimit_health_counterexample :
    runRLTrace 1 RateLimitState.init [⟨"/a", "c", 0⟩, ⟨"/health", "c", 1⟩]
      = [(⟨"/a", "c", 0⟩, .forwarded), (⟨"/health", "c", 1⟩, .forwarded)] ∧
    ((runRLTrace 1 RateLimitState.init [⟨"/a", "c", 0⟩, ⟨"/health", "c", 1⟩]).filter
        (fun p => p.2.isForwarded && decide ((1 : Int) - 60 < p.1.time)
          && decide (p.1.time ≤ 1) && decide (p.1.client = "c"))).length = 2 := by
  constructor
  · decide
  · decide

/-- C1 amended: under sequential processing of requests with nondecreasing
timestamps, starting from the fresh state: (1) no client's stored timestamp
list ever exceeds `requests_per_minute` entries; (2) within any sliding
60-second window `(hi-60, hi]`, at most `requests_per_minute` requests of a
client on paths other than `/health` are forwarded to the inner handler;
(3) every request is either forwarded or receives exactly the fixed 429
response. -/
theorem rateLimit_sliding_window (limit : Nat) (events : List RLEvent)
    (hmono : List.Pairwise (fun a b => a.time ≤ b.time) events) :
    (∀ c, ((runRL limit RateLimitState.init events).requests c).length ≤ limit) ∧
    (∀ c hi,
      windowCount (recordedTimes (runRLTrace limit RateLimitState.init events) c) hi
        ≤ limit) ∧
    (∀ p ∈ runRLTrace limit RateLimitState.init events,
      p.2 = RLOutcome.forwarded ∨ p.2 = RLOutcome.rejected (rateLimit429 limit)) := by
  refine ⟨rl_length_aux limit events RateLimitState.init (fun c => Nat.zero_le _), ?_,
    rl_outcomes_aux limit events RateLimitState.init⟩
  cases events with
  | nil =>
    intro c hi
    simp [runRLTrace, recordedTimes, windowCount]
  | cons e es =>
    intro c hi
    have hTev : ∀ e' ∈ e :: es, e.time ≤ e'.time := by
      intro e' he'
      rcases List.mem_cons.mp he' with h | h
      · rw [h]
      · exact (List.pairwise_cons.mp hmono).1 e' h
    have h := rl_window_aux limit (e :: es) RateLimitState.init (fun _ => []) e.time
      (fun c' now _ => rfl) (fun c' t ht => absurd ht (List.not_mem_nil _))
      (fun c' hi' => by simp [windowCount]) hTev hmono c hi
    simpa using h

/-- Witness for C1 (amended): two monotone events, one client. -/
theorem rateLimit_sliding_window_witness :
    windowCount (recordedTimes (runRLTrace 1 RateLimitState.init
        [⟨"/a", "c", 0⟩, ⟨"/b", "c", 1⟩]) "c") 1 ≤ 1 :=
  (rateLimit_sliding_window 1 [⟨"/a", "c", 0⟩, ⟨"/b", "c", 1⟩] (by decide)).2.1 "c" 1
